import Mathlib

/-!
Verification of the text-preprocessing and evaluation helpers of the
myersBriggsNLPAnalysis repository (src/scripts/helper_functions.py and
src/scripts/NLPAnalysis.py), as a shallow embedding in Lean 4.

Text is modelled as `List Char` / `String` over the ASCII fragment
(Python's `\w`, `\s` and `str.lower` are modelled on ASCII, which is the
alphabet used by every concrete input below).  Machine-level regex
matching is embedded by translating each alternative of `token_re`
(helper_functions.py lines 52-76) into an explicit matcher returning the
length of the match produced by Python's backtracking semantics at a
given position, and `findall` as the standard non-overlapping
left-to-right scan.
-/

namespace MBTI

/-! ### Character classes (ASCII model of Python's regex classes) -/

/-- Python `\s` on ASCII: space, tab, newline, carriage return,
vertical tab, form feed. -/
def py_isspace (c : Char) : Bool :=
  c == ' ' || c == Char.ofNat 9 || c == Char.ofNat 10 || c == Char.ofNat 13 ||
  c == Char.ofNat 11 || c == Char.ofNat 12

/-- Python `\w` on ASCII: letters, digits, underscore. -/
def is_word_char (c : Char) : Bool := c.isAlphanum || c == '_'

/-- `[a-z]` under `re.IGNORECASE`, ASCII model. -/
def is_letter (c : Char) : Bool := c.isAlpha

def is_digit (c : Char) : Bool := c.isDigit

/-! ### The emoticon pattern (helper_functions.py lines 52-57)

`[:=;]` (eyes), `[oO\-]?` (optional nose), `[D\)\]\(\]/\\OpPd]` (mouth),
compiled with `re.IGNORECASE` (so the mouth class also admits the other
case of `D`, `O`, `p`). -/

def is_eyes (c : Char) : Bool := c == ':' || c == '=' || c == ';'

def is_nose (c : Char) : Bool := c == 'o' || c == 'O' || c == '-'

def is_mouth (c : Char) : Bool :=
  c == 'D' || c == 'd' || c == ')' || c == ']' || c == '(' || c == '/' ||
  c == Char.ofNat 92 || c == 'O' || c == 'o' || c == 'p' || c == 'P'

/-- Alternative 1 of `token_re`: the emoticon pattern matched at the head
of `s`.  Python's greedy optional nose tries `eyes nose mouth` first and
backtracks to `eyes mouth`. -/
def match_emoticons : List Char → Option Nat
  | e :: n :: m :: _ =>
    if is_eyes e && is_nose n && is_mouth m then some 3
    else if is_eyes e && is_mouth n then some 2
    else none
  | [e, n] => if is_eyes e && is_mouth n then some 2 else none
  | _ => none

/-- `emoticon_re = re.compile(r'^' + emoticons_str + '$', ...)` matched
against a whole string: exactly eyes-mouth or eyes-nose-mouth. -/
def emoticon_core : List Char → Bool
  | [e, m] => is_eyes e && is_mouth m
  | [e, n, m] => is_eyes e && is_nose n && is_mouth m
  | _ => false

/-- `emoticon_re.search(token)`: with the `^...$` anchors this succeeds
iff the whole token matches, or (Python `$` also matches just before a
trailing newline) the token minus a trailing newline matches. -/
def emoticon_search (t : String) : Bool :=
  emoticon_core t.data ||
    (match t.data.getLast? with
     | some c => c == Char.ofNat 10 && emoticon_core t.data.dropLast
     | none => false)

/-! ### The remaining alternatives of `token_re` (lines 60-69) -/

/-- Alternative 2, `<[^>]+>` (HTML tags): `<`, one or more non-`>`
characters (greedy), then `>`. -/
def match_html : List Char → Option Nat
  | c :: rest =>
    if c == '<' then
      match rest.drop (rest.takeWhile (fun d => !(d == '>'))).length with
      | d :: _ =>
        if d == '>' && (rest.takeWhile (fun d => !(d == '>'))).length != 0 then
          some ((rest.takeWhile (fun d => !(d == '>'))).length + 2)
        else none
      | [] => none
    else none
  | [] => none

/-- Alternative 3, `(?:@[\w_]+)` (mentions). -/
def match_mention : List Char → Option Nat
  | c :: rest =>
    if c == '@' then
      if (rest.takeWhile is_word_char).length = 0 then none
      else some ((rest.takeWhile is_word_char).length + 1)
    else none
  | [] => none

/-- `[\w\'_\-]`, the middle class of the hashtag pattern. -/
def is_hashtag_body (c : Char) : Bool :=
  is_word_char c || c == Char.ofNat 39 || c == '-'

/-- Index of the last character satisfying `p`, scanning `l` with indices
starting at `i`; used to resolve the backtracking of the trailing
`[\w_]+` / `[a-z]` of the hashtag and word patterns. -/
def last_idx_from (p : Char → Bool) : List Char → Nat → Option Nat → Option Nat
  | [], _, best => best
  | c :: rest, i, best => last_idx_from p rest (i + 1) (if p c then some i else best)

/-- The run of leading `#` characters. -/
def hash_run (s : List Char) : List Char := s.takeWhile (fun c => c == '#')

/-- Alternative 4, `(?:\#+[\w_]+[\w\'_\-]*[\w_]+)` (hashtags).  After the
`#`-run, Python's backtracking matches `[\w_]+[\w\'_\-]*[\w_]+` as the
prefix of the maximal `[\w\'_\-]`-run that starts with a word character
and ends at the last word character of the run, provided that last word
character is not the run's first character. -/
def match_hashtag (s : List Char) : Option Nat :=
  if (hash_run s).length = 0 then none
  else
    match s.drop (hash_run s).length with
    | [] => none
    | c :: rest =>
      if is_word_char c then
        match last_idx_from is_word_char
            (((c :: rest).takeWhile is_hashtag_body).drop 1) 1 none with
        | some j => some ((hash_run s).length + j + 1)
        | none => none
      else none

/-- The URL body class
`(?:[a-z]|[0-9]|[$-_@.&amp;+]|[!*\(\),]|(?:%[0-9a-f][0-9a-f]))` of
alternative 5.  `[$-_@.&amp;+]` is the range `$`(0x24)–`_`(0x5f) plus the
literal characters `@ . & a m p ; +`; `%` lies inside the range, so the
`%hh` branch is subsumed by it (the alternation tries the range first and
the repetition then continues character by character). -/
def is_url_body (c : Char) : Bool :=
  is_letter c || is_digit c ||
  (0x24 ≤ c.toNat && c.toNat ≤ 0x5f) ||
  c == '@' || c == '.' || c == '&' || c == 'a' || c == 'm' || c == 'p' ||
  c == ';' || c == '+' ||
  c == '!' || c == '*' || c == '(' || c == ')' || c == ','

/-- The `://` and body part of the URL pattern; `consumed` is the length
of the already-matched scheme (`http` or `https`). -/
def url_rest (s : List Char) (consumed : Nat) : Option Nat :=
  match s with
  | c1 :: c2 :: c3 :: body =>
    if c1 == ':' && c2 == '/' && c3 == '/' then
      if (body.takeWhile is_url_body).length = 0 then none
      else some (consumed + 3 + (body.takeWhile is_url_body).length)
    else none
  | _ => none

/-- Alternative 5, `http[s]?://(...)+` (URLs), case-insensitive scheme. -/
def match_url : List Char → Option Nat
  | h :: t1 :: t2 :: p :: rest =>
    if h.toLower == 'h' && t1.toLower == 't' && t2.toLower == 't' &&
        p.toLower == 'p' then
      match rest with
      | c :: rest2 => if c.toLower == 's' then url_rest rest2 5 else url_rest (c :: rest2) 4
      | [] => none
    else none
  | _ => none

def digit_run (s : List Char) : Nat := (s.takeWhile is_digit).length

/-- The `(?:\d+,?)+` part of the number pattern: repeatedly a digit run
and an optionally consumed comma; the loop continues only while a digit
follows the comma (greedy `,?` keeps a trailing comma).  Returns the
number of characters consumed.  `fuel` bounds the recursion; callers pass
at least `s.length`, which each step (consuming ≥ 1 character) never
exhausts. -/
def number_int_go : Nat → List Char → Nat
  | 0, _ => 0
  | fuel + 1, s =>
    match s.drop (digit_run s) with
    | c :: rest2 =>
      if c == ',' then
        match rest2 with
        | d :: _ =>
          if is_digit d then digit_run s + 1 + number_int_go fuel rest2
          else digit_run s + 1
        | [] => digit_run s + 1
      else digit_run s
    | [] => digit_run s

/-- Alternative 6, `(?:(?:\d+,?)+(?:\.?\d+)?)` (numbers).  After the
integer part, the optional `(?:\.?\d+)` can only contribute a dot
followed by digits (the integer part already consumed every directly
following digit). -/
def match_number : List Char → Option Nat
  | c :: rest =>
    if is_digit c then
      match (c :: rest).drop (number_int_go (rest.length + 1) (c :: rest)) with
      | d :: rest2 =>
        if d == '.' && digit_run rest2 != 0 then
          some (number_int_go (rest.length + 1) (c :: rest) + 1 + digit_run rest2)
        else some (number_int_go (rest.length + 1) (c :: rest))
      | [] => some (number_int_go (rest.length + 1) (c :: rest))
    else none
  | [] => none

/-- `[a-z\'\-_]`, the middle class of the dashed-word pattern. -/
def is_wd_body (c : Char) : Bool :=
  is_letter c || c == Char.ofNat 39 || c == '-' || c == '_'

/-- Alternative 7, `(?:[a-z][a-z\'\-_]+[a-z])` (words with dashes and
apostrophes), case-insensitive.  Backtracking resolves as: a letter, then
the prefix of the maximal `[a-z\'\-_]`-run ending at its last letter `j`,
with `j ≥ 1` so the middle `+` is nonempty. -/
def match_worddash : List Char → Option Nat
  | c :: rest =>
    if is_letter c then
      match last_idx_from is_letter ((rest.takeWhile is_wd_body).drop 1) 1 none with
      | some j => some (j + 2)
      | none => none
    else none
  | [] => none

/-- Alternative 8, `(?:[\w_]+)` (other words). -/
def match_word (s : List Char) : Option Nat :=
  if (s.takeWhile is_word_char).length = 0 then none
  else some (s.takeWhile is_word_char).length

/-- Alternative 9, `(?:\S)` (any single non-whitespace character). -/
def match_nonspace : List Char → Option Nat
  | [] => none
  | c :: _ => if py_isspace c then none else some 1

/-- Ordered regex alternation: the first alternative that matches wins. -/
def alt : Option Nat → Option Nat → Option Nat
  | some n, _ => some n
  | none, b => b

/-- `token_re` (line 75) matched at the head of `s`: the nine
alternatives tried in their order of declaration. -/
def py_match (s : List Char) : Option Nat :=
  alt (match_emoticons s) (alt (match_html s) (alt (match_mention s)
    (alt (match_hashtag s) (alt (match_url s) (alt (match_number s)
      (alt (match_worddash s) (alt (match_word s) (match_nonspace s))))))))

/-- `token_re.findall(tweet)`: the standard non-overlapping left-to-right
scan — at each position emit the match of the alternation if there is
one and continue after it, otherwise advance one character.  `fuel`
bounds the recursion; callers pass `s.length`, which suffices because
every step consumes at least one character. -/
def findall_go : Nat → List Char → List (List Char)
  | 0, _ => []
  | fuel + 1, s =>
    match s with
    | [] => []
    | _ :: rest =>
      match py_match s with
      | some n => s.take n :: findall_go fuel (s.drop n)
      | none => findall_go fuel rest

/-- `[token for token in token_re.findall(tweet)]` (line 146). -/
def token_findall (s : String) : List String :=
  (findall_go s.data.length s.data).map String.mk

/-! ### check_emoticons, remove_stopwords (lines 82-115) -/

/-- `token.lower()` (ASCII model). -/
def py_lower (t : String) : String := String.mk (t.data.map Char.toLower)

/-- `check_emoticons(tokens, lowercase = False)` (lines 103-115): only
when `lowercase` is true, lowercase every token that does not contain an
emoticon match of `emoticon_re`; otherwise return the tokens unchanged. -/
def check_emoticons (tokens : List String) (lowercase : Bool) : List String :=
  if lowercase then
    tokens.map (fun token => if emoticon_search token then token else py_lower token)
  else tokens

/-- Python's `string.punctuation`, as single-character stopword tokens
(line 98: `list(string.punctuation)`). -/
def string_punctuation : List String :=
  ["!", "\"", "#", "$", "%", "&", "\x27", "(", ")", "*", "+", ",", "-", ".",
   "/", ":", ";", "<", "=", ">", "?", "@", "[", "\\", "]", "^", "_", "\x60",
   "\x7b", "|", "\x7d", "~"]

/-- `remove_stopwords(text)` (lines 82-101).  The English stopword corpus
is external data loaded from nltk at run time; it is modelled as the
parameter `stop_words`, and the combined stop list is the corpus plus
`string.punctuation`, exactly as in
`stop_list = stopwords.words('english') + list(string.punctuation)`. -/
def remove_stopwords (stop_words : List String) (text : List String) : List String :=
  text.filter (fun term => !((stop_words ++ string_punctuation).contains term))

/-! ### tokenize_data (lines 117-164) and parallelize (lines 310-327) -/

/-- One row of the two-column dataframe (`type`, `posts`). -/
structure Record where
  type : String
  posts : String
deriving DecidableEq

/-- Python `str.split(sep)` for a nonempty separator: split at each
non-overlapping occurrence scanning left to right; the empty string
yields `[""]`.  `fuel` bounds the recursion; callers pass more than
`s.length`. -/
def py_split_go (sep : List Char) : Nat → List Char → List Char → List (List Char)
  | 0, cur, s => [cur.reverse ++ s]
  | fuel + 1, cur, s =>
    match s with
    | [] => [cur.reverse]
    | c :: rest =>
      if s.take sep.length = sep then
        cur.reverse :: py_split_go sep fuel [] (s.drop sep.length)
      else
        py_split_go sep fuel (c :: cur) rest

def py_split (s sep : String) : List String :=
  (py_split_go sep.data (s.data.length + 1) [] s.data).map String.mk

/-- The body of the inner loop of `tokenize_data` (lines 143-154): for one
tweet, tokenize, run `check_emoticons` with its `lowercase` argument left
at the default `False` (line 149 passes no second argument), and filter
stopwords when requested. -/
def post_tokens (filter_stopwords : Bool) (stop_words : List String)
    (tweet : String) : List String :=
  let tokenized_tweets := token_findall tweet
  let tokenized_tweets := check_emoticons tokenized_tweets false
  if filter_stopwords then remove_stopwords stop_words tokenized_tweets
  else tokenized_tweets

/-- `tokenize_data(df, filter_stopwords = False)` (lines 117-164): for
each row, split `posts` on `'|||'` and append one `(type, tokens)` pair
per individual tweet to the accumulating list (the progress print at
lines 160-161 has no effect on the result). -/
def tokenize_data (df : List Record) (filter_stopwords : Bool)
    (stop_words : List String) : List (String × List String) :=
  df.foldl (fun token_list row =>
    (py_split row.posts "|||").foldl (fun acc tweet =>
      acc ++ [(row.type, post_tokens filter_stopwords stop_words tweet)]) token_list) []

/-- The chunk sizes produced by `np.array_split(df, n)`: the first
`len % n` chunks have `len / n + 1` rows, the rest `len / n`. -/
def split_sizes (len n : Nat) : List Nat :=
  (List.range n).map (fun i => if i < len % n then len / n + 1 else len / n)

def take_chunks : List α → List Nat → List (List α)
  | _, [] => []
  | l, s :: sizes => l.take s :: take_chunks (l.drop s) sizes

/-- `np.array_split(df, partitions)` (line 321): `n` contiguous chunks in
order, sizes as `split_sizes`. -/
def array_split (l : List α) (n : Nat) : List (List α) :=
  take_chunks l (split_sizes l.length n)

/-! ### grid_search (helper_functions.py lines 188-211) -/

/-- Python's `max(xs, key = lambda x: x[1])` over `grid_scores_`-shaped
triples: scan keeping the current best, replacing it only on a strictly
greater key — so the first element attaining the maximum is kept. -/
def py_max_go {α γ : Type} (best : α × ℚ × γ) : List (α × ℚ × γ) → α × ℚ × γ
  | [] => best
  | x :: rest => py_max_go (if best.2.1 < x.2.1 then x else best) rest

/-- `max(gs_clf.grid_scores_, key = lambda x: x[1])` (line 206); Python's
`max` raises `ValueError` on an empty sequence, modelled as `none`. -/
def py_max_by_score {α γ : Type} : List (α × ℚ × γ) → Option (α × ℚ × γ)
  | [] => none
  | x :: rest => some (py_max_go x rest)

/-- The `(best_parameters, score)` pair that `grid_search` (lines 188-211)
unpacks from the scan above and prints; `grid_scores_` is sklearn's list
of `(parameters, mean_validation_score, cv_validation_scores)` triples in
grid enumeration order, taken here as the input. -/
def grid_search_best {α γ : Type} (grid_scores : List (α × ℚ × γ)) :
    Option (α × ℚ) :=
  (py_max_by_score grid_scores).map (fun b => (b.1, b.2.1))

/-- The return value of `grid_search` (lines 188-211): the function body
prints the best parameters, the score and `cv_results_` and ends without
a `return` statement, so the Python function returns `None` — never a
`(best_params, best_score, all_results)` triple. -/
def grid_search_return {α γ : Type} (grid_scores : List (α × ℚ × γ)) :
    Option ((α × ℚ) × List (α × ℚ × γ)) :=
  none

/-! ### success_rates (lines 289-308) -/

/-- `success_rates(labels, predictions, return_results)` (lines 289-308):
pair the rows, group by label (one group per distinct label value that
occurs in `labels`; the groupby key order does not affect the mapping),
and map each occurring label to its fraction of rows with
`predicted == label`.  With `return_results` false the function only
prints and returns `None`. -/
def success_rates (labels predictions : List String) (return_results : Bool) :
    Option (List (String × ℚ)) :=
  let pairs := labels.zip predictions
  let fracs := labels.dedup.map (fun name =>
    (name,
      (((pairs.filter (fun p => p.1 == name)).filter (fun p => p.2 == p.1)).length : ℚ) /
        ((pairs.filter (fun p => p.1 == name)).length : ℚ)))
  if return_results then some fracs else none

/-! ### The CLI dispatcher (NLPAnalysis.py lines 333-354) -/

/-- The observable effect of the `__main__` block: either one of the
eight named actions is invoked, or a message is printed. -/
inductive MainEffect
  | run (fn : String)
  | message (text : String)
deriving DecidableEq

/-- The recognised CLI keywords, in the order the dispatcher tests them. -/
def recognized_keywords : List String :=
  ["basic", "tokenize", "unique", "cloud", "initial", "NB", "SVM", "NN"]

/-- The `__main__` dispatcher (NLPAnalysis.py lines 333-354): with exactly
one keyword argument (`len(sys.argv) == 2`) dispatch on it, printing
`"Incorrect keyword; please try again."` for an unrecognised keyword;
otherwise print the argument-count message.  No branch calls `sys.exit`,
so the block always finishes with process exit status `0`. -/
def main_dispatch (argv : List String) : MainEffect × Nat :=
  match argv with
  | [_, kw] =>
    (if kw = "basic" then MainEffect.run "basic_output"
     else if kw = "tokenize" then MainEffect.run "tokenize_data"
     else if kw = "unique" then MainEffect.run "unique_labels_word_freq"
     else if kw = "cloud" then MainEffect.run "word_cloud"
     else if kw = "initial" then MainEffect.run "initial_model"
     else if kw = "NB" then MainEffect.run "naive_bayes_model"
     else if kw = "SVM" then MainEffect.run "linear_SVM_model"
     else if kw = "NN" then MainEffect.run "neural_network_model"
     else MainEffect.message "Incorrect keyword; please try again.", 0)
  | _ => (MainEffect.message "Incorrect number of keywords; please enter only one keyword.", 0)

/-! ## Helper lemmas -/

theorem alt_eq_some {a b : Option Nat} {n : Nat} (h : alt a b = some n) :
    a = some n ∨ b = some n := by
  cases a with
  | none => exact Or.inr h
  | some m => exact Or.inl h

theorem alt_eq_none {a b : Option Nat} (h : alt a b = none) :
    a = none ∧ b = none := by
  cases a with
  | none => exact ⟨rfl, h⟩
  | some m => exact absurd h (by simp [alt])

/-! ## C10: check_emoticons at its default argument -/

/-- C10: for every token sequence, `check_emoticons` called with its
`lowercase` parameter left at the default value `False` is the identity
function — it returns the input token sequence unchanged, performing
neither lowercasing nor any emoticon-dependent transformation. -/
theorem check_emoticons_default_is_identity (tokens : List String) :
    check_emoticons tokens false = tokens := rfl

/-! ## C6: idempotence of the stopword/punctuation filter -/

/-- C6: for every stopword corpus and every token sequence, applying the
stopword/punctuation filter twice gives the same result as applying it
once: `filter(filter(tokens)) == filter(tokens)`. -/
theorem remove_stopwords_idempotent (stop_words : List String)
    (text : List String) :
    remove_stopwords stop_words (remove_stopwords stop_words text) =
      remove_stopwords stop_words text := by
  simp [remove_stopwords, List.filter_filter]

/-! ## C1: lowercasing of non-emoticon tokens -/

/-- C1 (code bug evaluation): on the record `("INTJ", "Hello")` the
preprocessing pipeline emits the token `"Hello"` unchanged — although
`"Hello"` is not an emoticon and its lowercase form is `"hello"` —
because `tokenize_data` calls `check_emoticons` with `lowercase` left at
its default `False`, against the stated behaviour (and against the
function's own docstring and the call-site comment). -/
theorem tokenizer_lowercasing_bug :
    tokenize_data [⟨"INTJ", "Hello"⟩] false [] = [("INTJ", ["Hello"])] ∧
    emoticon_search "Hello" = false ∧
    py_lower "Hello" = "hello" ∧
    ("Hello" : String) ≠ "hello" := by decide

/-! ## C5: a record with empty posts -/

/-- C5 (counterexample): a record whose `posts` is the empty string
produces one `(label, tokens)` pair, not zero — Python's
`''.split('|||')` is `['']`, so the inner loop runs once with an empty
tweet. -/
theorem empty_posts_not_zero_pairs :
    tokenize_data [⟨"INTJ", ""⟩] false [] = [("INTJ", [])] ∧
    (tokenize_data [⟨"INTJ", ""⟩] false []).length ≠ 0 := by decide

/-- C5 (amended): a record whose `posts` field is the empty string
produces exactly one `(label, tokens)` pair, whose token list is empty,
and does not raise an error. -/
theorem empty_posts_one_empty_pair (r : Record) (fs : Bool)
    (sw : List String) (h : r.posts = "") :
    tokenize_data [r] fs sw = [(r.type, [])] := by
  have h1 : token_findall "" = [] := by decide
  have h2 : py_split "" "|||" = [""] := by decide
  have h3 : post_tokens fs sw "" = [] := by
    cases fs <;> simp [post_tokens, h1, check_emoticons, remove_stopwords]
  simp [tokenize_data, h, h2, h3]

theorem empty_posts_one_empty_pair_witness :
    (⟨"INTJ", ""⟩ : Record).posts = "" ∧
    tokenize_data [⟨"INTJ", ""⟩] true ["the"] = [("INTJ", [])] :=
  ⟨rfl, empty_posts_one_empty_pair ⟨"INTJ", ""⟩ true ["the"] rfl⟩

/-! ## C9: the CLI dispatcher's exit status -/

/-- C9 (counterexample): invoking the dispatcher with the unrecognised
keyword `"bogus"` prints the error message but the process exit status is
`0`, not non-zero — the `__main__` block never calls `sys.exit`. -/
theorem dispatcher_exit_zero_counterexample :
    main_dispatch ["NLPAnalysis.py", "bogus"] =
      (MainEffect.message "Incorrect keyword; please try again.", 0) ∧
    (main_dispatch ["NLPAnalysis.py", "bogus"]).2 ≠ 1 := by decide

/-- C9 (amended): for every invocation of the CLI dispatcher the process
exit status is `0`; a wrong argument count prints the argument-count
message and an unrecognised keyword prints the keyword message — no
non-zero or otherwise distinct exit code is produced for any condition. -/
theorem dispatcher_always_exits_zero (argv : List String) :
    (main_dispatch argv).2 = 0 ∧
    (argv.length ≠ 2 →
      (main_dispatch argv).1 =
        MainEffect.message "Incorrect number of keywords; please enter only one keyword.") ∧
    (∀ s kw, argv = [s, kw] → kw ∉ recognized_keywords →
      (main_dispatch argv).1 =
        MainEffect.message "Incorrect keyword; please try again.") := by
  refine ⟨?_, ?_, ?_⟩
  · rcases argv with _ | ⟨a, _ | ⟨b, _ | ⟨c, t⟩⟩⟩ <;> rfl
  · intro hlen
    rcases argv with _ | ⟨a, _ | ⟨b, _ | ⟨c, t⟩⟩⟩
    · rfl
    · rfl
    · exact absurd rfl hlen
    · rfl
  · intro s kw heq hkw
    subst heq
    simp only [recognized_keywords, List.mem_cons, List.not_mem_nil, or_false] at hkw
    push_neg at hkw
    obtain ⟨h1, h2, h3, h4, h5, h6, h7, h8⟩ := hkw
    simp [main_dispatch, h1, h2, h3, h4, h5, h6, h7, h8]

theorem dispatcher_always_exits_zero_witness :
    (main_dispatch ["NLPAnalysis.py"]).2 = 0 ∧
    (main_dispatch ["NLPAnalysis.py"]).1 =
      MainEffect.message "Incorrect number of keywords; please enter only one keyword." :=
  ⟨(dispatcher_always_exits_zero ["NLPAnalysis.py"]).1,
   (dispatcher_always_exits_zero ["NLPAnalysis.py"]).2.1 (by decide)⟩

/-! ## C8: success_rates on an absent label -/

theorem lookup_map_none {l : String} (keys : List String) (f : String → ℚ)
    (h : l ∉ keys) :
    (keys.map (fun k => (k, f k))).lookup l = none := by
  induction keys with
  | nil => rfl
  | cons k t ih =>
    have hne : (l == k) = false :=
      beq_eq_false_iff_ne.mpr (fun e => h (e ▸ List.mem_cons_self k t))
    simp only [List.map_cons, List.lookup, hne]
    exact ih (fun hm => h (List.mem_cons_of_mem _ hm))

/-- C8: for every pair of equal-length label sequences and every label
value that occurs zero times in the actual labels, the per-label
success-rate mapping returned by `success_rates` has no entry for that
label — it is not mapped to zero, and computing the mapping is a total
operation (no error). -/
theorem success_rates_absent_label_undefined (labels predictions : List String)
    (l : String) (hlen : labels.length = predictions.length)
    (h0 : labels.count l = 0) :
    ∃ fracs, success_rates labels predictions true = some fracs ∧
      fracs.lookup l = none := by
  refine ⟨_, rfl, ?_⟩
  exact lookup_map_none labels.dedup _
    (fun hm => (List.count_eq_zero.mp h0) (List.mem_dedup.mp hm))

theorem success_rates_absent_label_undefined_witness :
    (["INTJ"] : List String).length = (["INTJ"] : List String).length ∧
    (["INTJ"] : List String).count "ENFP" = 0 ∧
    ∃ fracs, success_rates ["INTJ"] ["INTJ"] true = some fracs ∧
      fracs.lookup "ENFP" = none :=
  ⟨rfl, by decide,
   success_rates_absent_label_undefined ["INTJ"] ["INTJ"] "ENFP" rfl (by decide)⟩

/-! ## C7: grid_search -/

theorem py_max_go_spec {α γ : Type} (l : List (α × ℚ × γ)) :
    ∀ best : α × ℚ × γ,
      ∃ l₁ l₂, best :: l = l₁ ++ py_max_go best l :: l₂ ∧
        (∀ x ∈ l₁, x.2.1 < (py_max_go best l).2.1) ∧
        (∀ x ∈ best :: l, x.2.1 ≤ (py_max_go best l).2.1) := by
  induction l with
  | nil =>
    intro best
    exact ⟨[], [], rfl, by simp, by simp [py_max_go]⟩
  | cons x rest ih =>
    intro best
    by_cases hlt : best.2.1 < x.2.1
    · have hres : py_max_go best (x :: rest) = py_max_go x rest := by
        simp [py_max_go, hlt]
      obtain ⟨l₁, l₂, hdec, hbefore, hall⟩ := ih x
      refine ⟨best :: l₁, l₂, ?_, ?_, ?_⟩
      · rw [hres, List.cons_append, ← hdec]
      · intro y hy
        rw [hres]
        rcases List.mem_cons.mp hy with rfl | hy'
        · exact lt_of_lt_of_le hlt (hall x (List.mem_cons_self x rest))
        · exact hbefore y hy'
      · intro y hy
        rw [hres]
        rcases List.mem_cons.mp hy with rfl | hy'
        · exact le_of_lt (lt_of_lt_of_le hlt (hall x (List.mem_cons_self x rest)))
        · exact hall y hy'
    · have hres : py_max_go best (x :: rest) = py_max_go best rest := by
        simp [py_max_go, hlt]
      have hxle : x.2.1 ≤ best.2.1 := le_of_not_lt hlt
      obtain ⟨l₁, l₂, hdec, hbefore, hall⟩ := ih best
      cases l₁ with
      | nil =>
        injection hdec with hb hl
        rw [← hb] at hall
        refine ⟨[], x :: rest, ?_, by simp, ?_⟩
        · rw [hres, ← hb]
          rfl
        · intro y hy
          rw [hres, ← hb]
          rcases List.mem_cons.mp hy with rfl | hy'
          · exact le_refl _
          rcases List.mem_cons.mp hy' with rfl | hy''
          · exact hxle
          · exact hall y (List.mem_cons_of_mem _ hy'')
      | cons hfst l₁' =>
        injection hdec with hh hrest
        subst hh
        refine ⟨best :: x :: l₁', l₂, ?_, ?_, ?_⟩
        · rw [hres]
          simp only [List.cons_append]
          exact congrArg (fun t => best :: x :: t) hrest
        · intro y hy
          rw [hres]
          rcases List.mem_cons.mp hy with rfl | hy'
          · exact hbefore y (List.mem_cons_self _ _)
          rcases List.mem_cons.mp hy' with rfl | hy''
          · exact lt_of_le_of_lt hxle (hbefore best (List.mem_cons_self _ _))
          · exact hbefore y (List.mem_cons_of_mem _ hy'')
        · intro y hy
          rw [hres]
          rcases List.mem_cons.mp hy with rfl | hy'
          · exact hall y (List.mem_cons_self _ _)
          rcases List.mem_cons.mp hy' with rfl | hy''
          · exact le_trans hxle (hall best (List.mem_cons_self _ _))
          · exact hall y (List.mem_cons_of_mem _ hy'')

/-- C7 (counterexample): `grid_search` does not return the
`(best_params, best_score, all_results)` triple — the function body ends
without a `return` statement, so on the one-element grid-score list its
return value is `None`, not the triple the claim requires. -/
theorem grid_search_returns_none_counterexample :
    grid_search_return [((0 : Nat), (1 : ℚ), ([] : List ℚ))] = none ∧
    grid_search_return [((0 : Nat), (1 : ℚ), ([] : List ℚ))] ≠
      some (((0 : Nat), (1 : ℚ)), [((0 : Nat), (1 : ℚ), ([] : List ℚ))]) :=
  ⟨rfl, by decide⟩

/-- C7 (amended): `grid_search` computes (and prints, rather than
returns) a best entry: on any nonempty `grid_scores_` list the selected
element attains the maximum mean score and every entry strictly before it
scores strictly less — i.e. ties are broken in favour of the first
combination in grid enumeration order; the function's return value is
`None`, and `cv_results_` is printed, not returned. -/
theorem grid_search_prints_first_max {α γ : Type} (g : α × ℚ × γ)
    (rest : List (α × ℚ × γ)) :
    ∃ m l₁ l₂, py_max_by_score (g :: rest) = some m ∧
      grid_search_best (g :: rest) = some (m.1, m.2.1) ∧
      g :: rest = l₁ ++ m :: l₂ ∧
      (∀ x ∈ l₁, x.2.1 < m.2.1) ∧
      (∀ x ∈ g :: rest, x.2.1 ≤ m.2.1) ∧
      grid_search_return (g :: rest) = none := by
  obtain ⟨l₁, l₂, hdec, hbefore, hall⟩ := py_max_go_spec rest g
  exact ⟨py_max_go g rest, l₁, l₂, rfl, rfl, hdec, hbefore, hall, rfl⟩

theorem grid_search_prints_first_max_witness :
    ∃ m l₁ l₂,
      py_max_by_score [((0 : Nat), (1 : ℚ), ([] : List ℚ))] = some m ∧
      grid_search_best [((0 : Nat), (1 : ℚ), ([] : List ℚ))] = some (m.1, m.2.1) ∧
      [((0 : Nat), (1 : ℚ), ([] : List ℚ))] = l₁ ++ m :: l₂ ∧
      (∀ x ∈ l₁, x.2.1 < m.2.1) ∧
      (∀ x ∈ [((0 : Nat), (1 : ℚ), ([] : List ℚ))], x.2.1 ≤ m.2.1) ∧
      grid_search_return [((0 : Nat), (1 : ℚ), ([] : List ℚ))] = none :=
  grid_search_prints_first_max ((0 : Nat), (1 : ℚ), ([] : List ℚ)) []

/-! ## C4 and C2: shape of tokenize_data, partitioned preprocessing -/

theorem foldl_push {αx β : Type} (f : αx → β) (l : List αx) (init : List β) :
    l.foldl (fun acc x => acc ++ [f x]) init = init ++ l.map f := by
  induction l generalizing init with
  | nil => simp
  | cons a t ih => simp [ih]

theorem foldl_chunks {αx β : Type} (g : αx → List β) (l : List αx) (init : List β) :
    l.foldl (fun acc x => acc ++ g x) init = init ++ l.flatMap g := by
  induction l generalizing init with
  | nil => simp
  | cons a t ih => simp [ih]

/-- The loop of `tokenize_data` amounts to one flat-map over the rows:
each row contributes, in order, one `(type, tokens)` pair per element of
`posts.split('|||')`. -/
theorem tokenize_data_eq (df : List Record) (fs : Bool) (sw : List String) :
    tokenize_data df fs sw =
      df.flatMap (fun row => (py_split row.posts "|||").map
        (fun tweet => (row.type, post_tokens fs sw tweet))) := by
  unfold tokenize_data
  simp only [foldl_push, foldl_chunks, List.nil_append]

/-- C4: for every dataset, preprocessing emits exactly one
`(label, tokens)` pair per individual post obtained by splitting each
record's raw text on `'|||'` — each pair carries that record's label, and
the total output length is the sum of per-record post counts. -/
theorem one_pair_per_post (df : List Record) (fs : Bool) (sw : List String) :
    tokenize_data df fs sw =
      df.flatMap (fun row => (py_split row.posts "|||").map
        (fun tweet => (row.type, post_tokens fs sw tweet))) ∧
    (tokenize_data df fs sw).length =
      (df.map (fun row => (py_split row.posts "|||").length)).sum := by
  refine ⟨tokenize_data_eq df fs sw, ?_⟩
  rw [tokenize_data_eq]
  simp [List.length_flatMap, Function.comp_def, List.length_map]

theorem bind_join_parts {αx β : Type} (g : αx → List β) (parts : List (List αx)) :
    (parts.map (fun part => part.flatMap g)).flatten = parts.flatten.flatMap g := by
  induction parts with
  | nil => simp
  | cons p ps ih => simp [ih]

theorem take_chunks_join {αx : Type} (sizes : List Nat) :
    ∀ l : List αx, (take_chunks l sizes).flatten = l.take sizes.sum := by
  induction sizes with
  | nil => intro l; simp [take_chunks]
  | cons s rest ih =>
    intro l
    simp only [take_chunks, List.flatten_cons, List.sum_cons, ih]
    rw [List.take_add]

theorem range_sum_if (q r n : Nat) :
    ((List.range n).map (fun i => if i < r then q + 1 else q)).sum =
      n * q + min r n := by
  induction n with
  | zero => simp
  | succ n ih =>
    rw [List.range_succ, List.map_append, List.sum_append]
    simp only [List.map_cons, List.map_nil, List.sum_cons, List.sum_nil]
    rw [ih]
    rcases Nat.lt_or_ge n r with h | h
    · rw [if_pos h, Nat.min_eq_right (Nat.le_of_lt h),
        Nat.min_eq_right (Nat.succ_le_of_lt h), Nat.succ_mul]
      omega
    · rw [if_neg (Nat.not_lt.mpr h), Nat.min_eq_left h,
        Nat.min_eq_left (Nat.le_succ_of_le h), Nat.succ_mul]
      omega

theorem split_sizes_sum (len n : Nat) (h : 1 ≤ n) :
    (split_sizes len n).sum = len := by
  unfold split_sizes
  rw [range_sum_if, Nat.min_eq_left (Nat.le_of_lt (Nat.mod_lt _ h))]
  exact Nat.div_add_mod len n

/-- C2: for every dataset and every partition count `n ≥ 1`, splitting
the dataset with `np.array_split` into `n` disjoint contiguous
partitions, preprocessing each partition independently and concatenating
the partition results in order (as `parallelize` does with
`pd.concat(pool.map(func, df_subsets))`) yields exactly the same sequence
of `(label, tokens)` pairs as sequential single-partition preprocessing. -/
theorem partitioned_preprocessing_eq_sequential (sw : List String) (fs : Bool)
    (df : List Record) (n : Nat) (h : 1 ≤ n) :
    ((array_split df n).map (fun part => tokenize_data part fs sw)).flatten =
      tokenize_data df fs sw := by
  have hjoin : (array_split df n).flatten = df := by
    unfold array_split
    rw [take_chunks_join, split_sizes_sum _ _ h, List.take_length]
  simp only [tokenize_data_eq]
  rw [bind_join_parts, hjoin]

theorem partitioned_preprocessing_eq_sequential_witness :
    1 ≤ 2 ∧
    ((array_split [(⟨"INTJ", "ab|||cd"⟩ : Record), ⟨"ENFP", ":) ok"⟩] 2).map
        (fun part => tokenize_data part false [])).flatten =
      tokenize_data [(⟨"INTJ", "ab|||cd"⟩ : Record), ⟨"ENFP", ":) ok"⟩] false [] :=
  ⟨by decide,
   partitioned_preprocessing_eq_sequential [] false
     [(⟨"INTJ", "ab|||cd"⟩ : Record), ⟨"ENFP", ":) ok"⟩] 2 (by decide)⟩

/-! ## C3: the tokenizer loses no non-whitespace character -/

theorem match_emoticons_pos {s : List Char} {n : Nat}
    (h : match_emoticons s = some n) : 1 ≤ n := by
  rcases s with _ | ⟨e, _ | ⟨m, _ | ⟨k, rest⟩⟩⟩ <;> simp only [match_emoticons] at h
  all_goals repeat' (first | split_ifs at h | split at h)
  all_goals first
    | exact Option.noConfusion h
    | (injection h with h2; omega)

theorem match_html_pos {s : List Char} {n : Nat}
    (h : match_html s = some n) : 1 ≤ n := by
  rcases s with _ | ⟨c, rest⟩ <;> simp only [match_html] at h
  all_goals repeat' (first | split_ifs at h | split at h)
  all_goals first
    | exact Option.noConfusion h
    | (injection h with h2; omega)

theorem match_mention_pos {s : List Char} {n : Nat}
    (h : match_mention s = some n) : 1 ≤ n := by
  rcases s with _ | ⟨c, rest⟩ <;> simp only [match_mention] at h
  all_goals repeat' (first | split_ifs at h | split at h)
  all_goals first
    | exact Option.noConfusion h
    | (injection h with h2; omega)

theorem match_hashtag_pos {s : List Char} {n : Nat}
    (h : match_hashtag s = some n) : 1 ≤ n := by
  simp only [match_hashtag] at h
  repeat' (first | split_ifs at h | split at h)
  all_goals first
    | exact Option.noConfusion h
    | (injection h with h2; omega)

theorem url_rest_pos {s : List Char} {k n : Nat}
    (h : url_rest s k = some n) : 1 ≤ n := by
  rcases s with _ | ⟨c1, _ | ⟨c2, _ | ⟨c3, body⟩⟩⟩ <;> simp only [url_rest] at h
  all_goals repeat' (first | split_ifs at h | split at h)
  all_goals first
    | exact Option.noConfusion h
    | (injection h with h2; omega)

theorem match_url_pos {s : List Char} {n : Nat}
    (h : match_url s = some n) : 1 ≤ n := by
  rcases s with _ | ⟨h1, _ | ⟨t1, _ | ⟨t2, _ | ⟨p, rest⟩⟩⟩⟩ <;>
    simp only [match_url] at h
  all_goals repeat' (first | split_ifs at h | split at h)
  all_goals first
    | exact Option.noConfusion h
    | exact url_rest_pos h

theorem digit_run_cons_pos {c : Char} {rest : List Char}
    (h : is_digit c = true) : 1 ≤ digit_run (c :: rest) := by
  simp [digit_run, List.takeWhile_cons, h]

theorem number_int_go_pos {fuel : Nat} {s : List Char}
    (h : 1 ≤ digit_run s) : 1 ≤ number_int_go (fuel + 1) s := by
  simp only [number_int_go]
  repeat' (first | split_ifs | split)
  all_goals omega

theorem match_number_pos {s : List Char} {n : Nat}
    (h : match_number s = some n) : 1 ≤ n := by
  rcases s with _ | ⟨c, rest⟩ <;> simp only [match_number] at h
  · exact Option.noConfusion h
  split_ifs at h with hc
  have hpos : 1 ≤ number_int_go (rest.length + 1) (c :: rest) :=
    number_int_go_pos (digit_run_cons_pos hc)
  repeat' (first | split_ifs at h | split at h)
  all_goals first
    | exact Option.noConfusion h
    | (injection h with h2; omega)

theorem match_worddash_pos {s : List Char} {n : Nat}
    (h : match_worddash s = some n) : 1 ≤ n := by
  rcases s with _ | ⟨c, rest⟩ <;> simp only [match_worddash] at h
  all_goals repeat' (first | split_ifs at h | split at h)
  all_goals first
    | exact Option.noConfusion h
    | (injection h with h2; omega)

theorem match_word_pos {s : List Char} {n : Nat}
    (h : match_word s = some n) : 1 ≤ n := by
  simp only [match_word] at h
  repeat' (first | split_ifs at h | split at h)
  all_goals first
    | exact Option.noConfusion h
    | (injection h with h2; omega)

theorem match_nonspace_pos {s : List Char} {n : Nat}
    (h : match_nonspace s = some n) : 1 ≤ n := by
  rcases s with _ | ⟨c, rest⟩ <;> simp only [match_nonspace] at h
  all_goals repeat' (first | split_ifs at h | split at h)
  all_goals first
    | exact Option.noConfusion h
    | (injection h with h2; omega)


theorem py_match_pos {s : List Char} {n : Nat}
    (h : py_match s = some n) : 1 ≤ n := by
  unfold py_match at h
  rcases alt_eq_some h with h | h
  · exact match_emoticons_pos h
  rcases alt_eq_some h with h | h
  · exact match_html_pos h
  rcases alt_eq_some h with h | h
  · exact match_mention_pos h
  rcases alt_eq_some h with h | h
  · exact match_hashtag_pos h
  rcases alt_eq_some h with h | h
  · exact match_url_pos h
  rcases alt_eq_some h with h | h
  · exact match_number_pos h
  rcases alt_eq_some h with h | h
  · exact match_worddash_pos h
  rcases alt_eq_some h with h | h
  · exact match_word_pos h
  · exact match_nonspace_pos h

/-- If the alternation fails at a position, the character there is
whitespace: the final `(?:\S)` alternative matches any other character. -/
theorem py_match_none_head {c : Char} {rest : List Char}
    (h : py_match (c :: rest) = none) : py_isspace c = true := by
  unfold py_match at h
  have h1 := (alt_eq_none h).2
  have h2 := (alt_eq_none h1).2
  have h3 := (alt_eq_none h2).2
  have h4 := (alt_eq_none h3).2
  have h5 := (alt_eq_none h4).2
  have h6 := (alt_eq_none h5).2
  have h7 := (alt_eq_none h6).2
  have h8 := (alt_eq_none h7).2
  by_cases hc : py_isspace c
  · exact hc
  · simp [match_nonspace, hc] at h8

theorem findall_go_covers (fuel : Nat) :
    ∀ s : List Char, s.length ≤ fuel → ∀ c ∈ s, py_isspace c = false →
      ∃ t ∈ findall_go fuel s, c ∈ t := by
  induction fuel with
  | zero =>
    intro s hs c hc _
    rw [List.length_eq_zero.mp (Nat.le_zero.mp hs)] at hc
    exact absurd hc (List.not_mem_nil c)
  | succ fuel ih =>
    intro s hs c hc hns
    rcases s with _ | ⟨c0, rest⟩
    · exact absurd hc (List.not_mem_nil c)
    cases hm : py_match (c0 :: rest) with
    | none =>
      have hsp := py_match_none_head hm
      have hcr : c ∈ rest := by
        rcases List.mem_cons.mp hc with rfl | h'
        · rw [hns] at hsp
          exact absurd hsp (by simp)
        · exact h'
      obtain ⟨t, ht, hct⟩ := ih rest (by simp at hs; omega) c hcr hns
      refine ⟨t, ?_, hct⟩
      simp only [findall_go, hm]
      exact ht
    | some n =>
      have hn := py_match_pos hm
      have hsplit : c ∈ (c0 :: rest).take n ∨ c ∈ (c0 :: rest).drop n := by
        rw [← List.mem_append, List.take_append_drop]
        exact hc
      rcases hsplit with h1 | h2
      · refine ⟨(c0 :: rest).take n, ?_, h1⟩
        simp only [findall_go, hm]
        exact List.mem_cons_self _ _
      · have hlen : ((c0 :: rest).drop n).length ≤ fuel := by
          rw [List.length_drop]
          simp only [List.length_cons] at hs ⊢
          omega
        obtain ⟨t, ht, hct⟩ := ih _ hlen c h2 hns
        refine ⟨t, ?_, hct⟩
        simp only [findall_go, hm]
        exact List.mem_cons_of_mem _ ht

/-- C3: for every input text, every non-whitespace character of the input
appears in at least one token of the tokenizer's output — the ordered
alternation of patterns ending in the single-non-whitespace-character
fallback loses no character. -/
theorem tokenizer_covers_nonspace (s : String) (c : Char)
    (hc : c ∈ s.data) (hns : py_isspace c = false) :
    ∃ t ∈ token_findall s, c ∈ t.data := by
  obtain ⟨t, ht, hct⟩ := findall_go_covers s.data.length s.data le_rfl c hc hns
  exact ⟨String.mk t, List.mem_map_of_mem _ ht, hct⟩

theorem tokenizer_covers_nonspace_witness :
    ('a' ∈ ("a b" : String).data ∧ py_isspace 'a' = false) ∧
    ∃ t ∈ token_findall "a b", 'a' ∈ t.data :=
  ⟨⟨by decide, by decide⟩, tokenizer_covers_nonspace "a b" 'a' (by decide) (by decide)⟩

end MBTI
